import Mathlib

/-!
Verification development for the agenda-telefonica repository (an Express +
SQLite contact book).  The backend lives in src/public/app.js (server part)
and src/database.js (schema).  Strings are modelled as `List Char`; the two
tables Contato and Telefone are modelled as lists of rows; every endpoint of
the server that the claims mention is translated into a pure Lean function
over that state.
-/

namespace Agenda

/-! ### String utilities of the server (src/public/app.js, server part) -/

/-- Whitespace recognised by the model of JavaScript `String.prototype.trim`. -/
def isWs (c : Char) : Bool := c = ' ' || c = '\t' || c = '\n' || c = '\r'

/-- Model of JavaScript `str.trim()`: removes leading and trailing whitespace. -/
def trim (s : List Char) : List Char :=
  ((s.dropWhile isWs).reverse.dropWhile isWs).reverse

/-- `sanitizar` (app.js): `str.trim().substring(0, 200)`. -/
def sanitizar (s : List Char) : List Char := (trim s).take 200

/-- `normalizarNumero` (server, app.js): `str.replace(/\D+/g, '')`, i.e. keep
only the ASCII digits of the string. -/
def normalizarNumero (s : List Char) : List Char := s.filter Char.isDigit

/-- `normalizarTelefone` (client, app.js): `str.replace(/\D/g, '')`; the same
digit-only normalization as the server-side `normalizarNumero`. -/
def normalizarTelefone (s : List Char) : List Char := s.filter Char.isDigit

/-- `SQL_NUMERO_NORMALIZADO` (app.js): the SQL expression
`REPLACE(REPLACE(REPLACE(REPLACE(t.NUMERO,'(',''),')',''),'-',''),' ','')`.
It removes ONLY the four characters parenthesis-open, parenthesis-close,
hyphen and space; any other non-digit character of the stored number is kept,
unlike the digit-only `normalizarNumero`. -/
def sqlNumeroNormalizado (s : List Char) : List Char :=
  s.filter (fun c => !(c = '(' || c = ')' || c = '-' || c = ' '))

/-- ASCII lower-casing of one character, as SQLite `LIKE` applies it. -/
def lowerChar (c : Char) : Char :=
  if 'A' ≤ c ∧ c ≤ 'Z' then Char.ofNat (c.toNat + 32) else c

/-- `pat` occurs as a contiguous substring of the second argument. -/
def occursIn (pat : List Char) : List Char → Bool
  | [] => pat.isEmpty
  | c :: s => pat.isPrefixOf (c :: s) || occursIn pat s

/-- Model of the SQL condition `NOME LIKE '%' + termo + '%'` for a term that
contains no LIKE metacharacter (no percent sign and no underscore): SQLite
LIKE is ASCII-case-insensitive substring containment in that case. -/
def nomeLike (nome termo : List Char) : Bool :=
  occursIn (termo.map lowerChar) (nome.map lowerChar)

/-- `validarTelefone` (app.js): the digit-only normalization must have length
10 or 11.  The create endpoint inlines the same test in its filter. -/
def validarTelefone (numero : List Char) : Bool :=
  decide (10 ≤ (normalizarNumero numero).length) &&
    decide ((normalizarNumero numero).length ≤ 11)

/-- `validarContato` (app.js) returns a list of error messages; this model
returns `true` exactly when that list is empty: the (untrimmed) name is
non-blank and at most 100 characters, and the age, when present, lies in
1..150. -/
def validarContato (nome : List Char) (idade : Option Int) : Bool :=
  !(trim nome).isEmpty && decide (nome.length ≤ 100) &&
    (match idade with
     | none => true
     | some n => decide (1 ≤ n ∧ n ≤ 150))

/-! ### GROUP_CONCAT with separator between two bars, and its split

Every read endpoint builds `GROUP_CONCAT(t.NUMERO, '||')` in SQL and then
does `row.TELEFONES ? row.TELEFONES.split('||') : []` in JavaScript. -/

/-- The two-character separator used by the server. -/
def bars : List Char := ['|', '|']

/-- `joinBars` models SQL `GROUP_CONCAT(t.NUMERO, '||')` over the listed
numbers (in table order). -/
def joinBars : List (List Char) → List Char
  | [] => []
  | [p] => p
  | p :: ps => p ++ bars ++ joinBars ps

/-- `splitBars` models JavaScript `s.split('||')`: leftmost separator first. -/
def splitBars : List Char → List (List Char)
  | [] => [[]]
  | [c] => [[c]]
  | c1 :: c2 :: rest =>
      if c1 = '|' ∧ c2 = '|' then [] :: splitBars rest
      else
        match splitBars (c2 :: rest) with
        | [] => [[c1]]
        | s :: ss => (c1 :: s) :: ss

/-- The TELEFONES array a read endpoint produces from the stored numbers of
one contact: `GROUP_CONCAT` joined with the two-bar separator, then split on
it again; a NULL (no phone rows) and an empty concatenation both give the
empty array, because the JS code tests truthiness of the string first. -/
def groupConcatSplit (phones : List (List Char)) : List (List Char) :=
  if phones = [] then []
  else if joinBars phones = [] then []
  else splitBars (joinBars phones)

/-! ### The data model (src/database.js) -/

/-- One row of table Contato: ID, NOME, IDADE (nullable). -/
structure Contato where
  id : Nat
  nome : List Char
  idade : Option Int
deriving DecidableEq, Repr

/-- One row of table Telefone: ID, IDCONTATO (foreign key, ON DELETE
CASCADE), NUMERO. -/
structure Telefone where
  id : Nat
  idcontato : Nat
  numero : List Char
deriving DecidableEq, Repr

/-- The database state, plus the AUTOINCREMENT counters of the two tables. -/
structure DB where
  contatos : List Contato
  telefones : List Telefone
  proximoContatoId : Nat
  proximoTelefoneId : Nat
deriving DecidableEq, Repr

/-- The freshly created database: both tables empty, AUTOINCREMENT at 1. -/
def dbInicial : DB := ⟨[], [], 1, 1⟩

/-- The stored numbers of one contact, in phone-table order (the order the
LEFT JOIN enumerates them). -/
def phonesOf (db : DB) (cid : Nat) : List (List Char) :=
  (db.telefones.filter (fun t => t.idcontato == cid)).map Telefone.numero

/-- HTTP outcome of a mutating endpoint. -/
inductive Resp where
  | created : Nat → Resp
  | okAtualizado : Resp
  | okExcluido : Resp
  | badRequest : Resp
  | notFound : Resp
deriving DecidableEq, Repr

/-- One JSON object of a read endpoint's response array. -/
structure Row where
  ID : Nat
  NOME : List Char
  IDADE : Option Int
  TELEFONES : List (List Char)
deriving DecidableEq, Repr

/-- One line of logs/exclusoes.txt as written by `gravarLog` (the wall-clock
timestamp is not modelled): the deleted id, the NOME and the TELEFONES array
the delete handler passed in. -/
structure LogEntry where
  id : Nat
  nome : List Char
  telefones : List (List Char)
deriving DecidableEq, Repr

/-! ### ORDER BY c.NOME

SQLite orders TEXT by byte order, which on UTF-8 agrees with lexicographic
order of code points. -/

/-- Lexicographic less-or-equal on strings by code point. -/
def strLe : List Char → List Char → Bool
  | [], _ => true
  | _ :: _, [] => false
  | a :: as, b :: bs =>
      decide (a.toNat < b.toNat) || (decide (a.toNat = b.toNat) && strLe as bs)

theorem strLe_total : ∀ a b : List Char, strLe a b = true ∨ strLe b a = true := by
  intro a
  induction a with
  | nil => intro b; left; rfl
  | cons x xs ih =>
      intro b
      cases b with
      | nil => right; rfl
      | cons y ys =>
          simp only [strLe, Bool.or_eq_true, Bool.and_eq_true, decide_eq_true_eq]
          rcases Nat.lt_trichotomy x.toNat y.toNat with h | h | h
          · exact Or.inl (Or.inl h)
          · rcases ih ys with h2 | h2
            · exact Or.inl (Or.inr ⟨h, h2⟩)
            · exact Or.inr (Or.inr ⟨h.symm, h2⟩)
          · exact Or.inr (Or.inl h)

theorem strLe_trans : ∀ a b c : List Char,
    strLe a b = true → strLe b c = true → strLe a c = true := by
  intro a
  induction a with
  | nil => intro b c _ _; rfl
  | cons x xs ih =>
      intro b c hab hbc
      cases b with
      | nil => simp [strLe] at hab
      | cons y ys =>
          cases c with
          | nil => simp [strLe] at hbc
          | cons z zs =>
              simp only [strLe, Bool.or_eq_true, Bool.and_eq_true,
                decide_eq_true_eq] at hab hbc ⊢
              rcases hab with h1 | ⟨h1, h1r⟩
              · rcases hbc with h2 | ⟨h2, _⟩
                · exact Or.inl (by omega)
                · exact Or.inl (by omega)
              · rcases hbc with h2 | ⟨h2, h2r⟩
                · exact Or.inl (by omega)
                · exact Or.inr ⟨by omega, ih ys zs h1r h2r⟩

/-- The ordering `ORDER BY c.NOME` compares contacts by name. -/
def contatoLe (a b : Contato) : Prop := strLe a.nome b.nome = true

instance : DecidableRel contatoLe := fun a b =>
  decidable_of_iff (strLe a.nome b.nome = true) Iff.rfl

instance : IsTotal Contato contatoLe :=
  ⟨fun a b => strLe_total a.nome b.nome⟩

instance : IsTrans Contato contatoLe :=
  ⟨fun a b c => strLe_trans a.nome b.nome c.nome⟩

/-- Rows of a response array ordered by the NOME field. -/
def rowLe (a b : Row) : Prop := strLe a.NOME b.NOME = true

/-- `ORDER BY c.NOME` over the contact table. -/
def sortByName (l : List Contato) : List Contato := List.insertionSort contatoLe l

/-! ### The endpoints (src/public/app.js, server part) -/

/-- The phone rows inserted for contact `cid` from the valid numbers of a
request, in request order, with consecutive AUTOINCREMENT ids from `tid`;
each number is stored through `sanitizar` exactly as the handlers do. -/
def mkPhones (cid : Nat) : Nat → List (List Char) → List Telefone
  | _, [] => []
  | tid, t :: ts => ⟨tid, cid, sanitizar t⟩ :: mkPhones cid (tid + 1) ts

/-- `app.post('/api/contatos')`: validate name/age, require a non-empty phone
array, FILTER the phones down to the valid ones (10 or 11 digits after
normalization) and reject only when none is left; otherwise insert the
contact and then one row per valid phone. -/
def criarContato (db : DB) (nome : List Char) (idade : Option Int)
    (telefones : List (List Char)) : DB × Resp :=
  if validarContato nome idade = false then (db, Resp.badRequest)
  else if telefones = [] then (db, Resp.badRequest)
  else if telefones.filter validarTelefone = [] then (db, Resp.badRequest)
  else
    let valid := telefones.filter validarTelefone
    let cid := db.proximoContatoId
    (⟨db.contatos ++ [⟨cid, sanitizar nome, idade⟩],
      db.telefones ++ mkPhones cid db.proximoTelefoneId valid,
      cid + 1,
      db.proximoTelefoneId + valid.length⟩, Resp.created cid)

/-- `app.put('/api/contatos/:id')`: same validation as create; the UPDATE
touches no row when the id is absent (changes = 0, answered 404); otherwise
name and age are overwritten, ALL phone rows of the contact are deleted and
one row per valid phone of the request is inserted. -/
def atualizarContato (db : DB) (id : Nat) (nome : List Char) (idade : Option Int)
    (telefones : List (List Char)) : DB × Resp :=
  if validarContato nome idade = false then (db, Resp.badRequest)
  else if telefones = [] then (db, Resp.badRequest)
  else if telefones.filter validarTelefone = [] then (db, Resp.badRequest)
  else if db.contatos.any (fun c => c.id == id) = false then (db, Resp.notFound)
  else
    let valid := telefones.filter validarTelefone
    (⟨db.contatos.map (fun c => if c.id = id then ⟨c.id, sanitizar nome, idade⟩ else c),
      db.telefones.filter (fun t => !(t.idcontato == id)) ++
        mkPhones id db.proximoTelefoneId valid,
      db.proximoContatoId,
      db.proximoTelefoneId + valid.length⟩, Resp.okAtualizado)

/-- Result of the delete endpoint: the new state, the log lines appended to
logs/exclusoes.txt by this request, and the HTTP outcome. -/
structure DelOut where
  db : DB
  logAppend : List LogEntry
  resp : Resp
deriving DecidableEq, Repr

/-- `app.delete('/api/contatos/:id')`: look the contact up (404 when absent,
nothing written); otherwise `gravarLog` appends one line built from the
pre-deletion name and the split GROUP_CONCAT of the pre-deletion numbers,
and then the contact row is deleted, the phone rows going with it through
ON DELETE CASCADE. -/
def excluirContato (db : DB) (id : Nat) : DelOut :=
  match db.contatos.find? (fun c => c.id == id) with
  | none => ⟨db, [], Resp.notFound⟩
  | some c =>
      ⟨⟨db.contatos.filter (fun x => !(x.id == id)),
        db.telefones.filter (fun t => !(t.idcontato == id)),
        db.proximoContatoId,
        db.proximoTelefoneId⟩,
       [⟨id, c.nome, groupConcatSplit (phonesOf db id)⟩],
       Resp.okExcluido⟩

/-- The row a read endpoint produces for one contact when no WHERE clause
restricts the joined phone rows. -/
def linhaContato (db : DB) (c : Contato) : Row :=
  ⟨c.id, c.nome, c.idade, groupConcatSplit (phonesOf db c.id)⟩

/-- `app.get('/api/contatos')`: every contact, grouped with its phones,
ordered by NOME. -/
def listarContatos (db : DB) : List Row :=
  (sortByName db.contatos).map (linhaContato db)

/-- `app.get('/api/contatos/:id')`: the one matching row, or 404 (`none`). -/
def obterContato (db : DB) (id : Nat) : Option Row :=
  (db.contatos.find? (fun c => c.id == id)).map (linhaContato db)

/-- The WHERE condition of the search query for one joined row: the name
matches the raw term, or the SQL-normalized number contains the digit-only
normalized term. -/
def pesquisaCond (termo : List Char) (nome numero : List Char) : Bool :=
  nomeLike nome termo || occursIn (normalizarNumero termo) (sqlNumeroNormalizado numero)

/-- A contact survives the search's WHERE/GROUP BY iff some joined row does;
a contact without phones contributes a single row with a NULL number, which
passes iff the name matches. -/
def pesquisaMatch (db : DB) (termo : List Char) (c : Contato) : Bool :=
  nomeLike c.nome termo ||
    (phonesOf db c.id).any
      (fun n => occursIn (normalizarNumero termo) (sqlNumeroNormalizado n))

/-- The search row of a matching contact: GROUP_CONCAT aggregates only the
joined phone rows that passed the WHERE clause. -/
def pesquisaRow (db : DB) (termo : List Char) (c : Contato) : Row :=
  ⟨c.id, c.nome, c.idade,
   groupConcatSplit ((phonesOf db c.id).filter (pesquisaCond termo c.nome))⟩

/-- `app.get('/api/contatos/pesquisar')`: empty array for a blank term,
otherwise the matching contacts ordered by NOME. -/
def pesquisarContatos (db : DB) (termo : List Char) : List Row :=
  if trim termo = [] then []
  else ((sortByName db.contatos).filter (pesquisaMatch db termo)).map
    (pesquisaRow db termo)

/-- The candidate numbers the duplicate check queries for: each request phone
through `normalizarNumero`, empty results discarded. -/
def numerosNormalizados (telefones : List (List Char)) : List (List Char) :=
  (telefones.map normalizarNumero).filter (fun n => !n.isEmpty)

/-- A contact is a duplicate iff one of its phone rows, SQL-normalized,
equals one of the candidate numbers (INNER JOIN plus IN). -/
def verificaMatch (db : DB) (nums : List (List Char)) (c : Contato) : Bool :=
  (phonesOf db c.id).any (fun n => decide (sqlNumeroNormalizado n ∈ nums))

/-- The response row of a duplicate: again only the joined rows that passed
the WHERE clause reach GROUP_CONCAT. -/
def verificaRow (db : DB) (nums : List (List Char)) (c : Contato) : Row :=
  ⟨c.id, c.nome, c.idade,
   groupConcatSplit
     ((phonesOf db c.id).filter (fun n => decide (sqlNumeroNormalizado n ∈ nums)))⟩

/-- `app.post('/api/telefones/verificar')`: empty result for an empty request
or when every candidate normalizes to nothing; otherwise the contacts owning
a phone whose SQL-normalized number equals some candidate. -/
def verificarTelefones (db : DB) (telefones : List (List Char)) : List Row :=
  if telefones = [] then []
  else if numerosNormalizados telefones = [] then []
  else (db.contatos.filter (verificaMatch db (numerosNormalizados telefones))).map
    (verificaRow db (numerosNormalizados telefones))

/-- The states reachable from the fresh database through the mutating
endpoints of the application. -/
inductive Reachable : DB → Prop where
  | init : Reachable dbInicial
  | create (db : DB) (nome : List Char) (idade : Option Int)
      (telefones : List (List Char)) :
      Reachable db → Reachable (criarContato db nome idade telefones).1
  | update (db : DB) (id : Nat) (nome : List Char) (idade : Option Int)
      (telefones : List (List Char)) :
      Reachable db → Reachable (atualizarContato db id nome idade telefones).1
  | delete (db : DB) (id : Nat) :
      Reachable db → Reachable (excluirContato db id).db

/-! ### Round-trip of GROUP_CONCAT and split -/

theorem splitBars_noBar : ∀ p : List Char, '|' ∉ p → splitBars p = [p] := by
  intro p
  induction p with
  | nil => intro _; rfl
  | cons c rest ih =>
      intro h
      have hc : c ≠ '|' := by
        intro hc; exact h (by simp [hc])
      have hrest : '|' ∉ rest := fun hm => h (List.mem_cons_of_mem _ hm)
      cases rest with
      | nil => rfl
      | cons c2 rest2 =>
          simp only [splitBars]
          rw [if_neg (fun hh => hc hh.1)]
          rw [ih hrest]

theorem splitBars_append_bars : ∀ p r : List Char, '|' ∉ p →
    splitBars (p ++ bars ++ r) = p :: splitBars r := by
  intro p
  induction p with
  | nil =>
      intro r _
      show splitBars ('|' :: '|' :: r) = [] :: splitBars r
      rw [splitBars, if_pos ⟨rfl, rfl⟩]
  | cons c p' ih =>
      intro r h
      have hc : c ≠ '|' := by
        intro hc; exact h (by simp [hc])
      have hp' : '|' ∉ p' := fun hm => h (List.mem_cons_of_mem _ hm)
      cases p' with
      | nil =>
          show splitBars (c :: '|' :: '|' :: r) = [c] :: splitBars r
          have hin : splitBars ('|' :: '|' :: r) = [] :: splitBars r := by
            rw [splitBars, if_pos ⟨rfl, rfl⟩]
          rw [splitBars, if_neg (fun hh => hc hh.1), hin]
      | cons d p'' =>
          have hstep := ih r hp'
          simp only [List.cons_append] at hstep ⊢
          rw [splitBars, if_neg (fun hh => hc hh.1), hstep]

theorem splitBars_joinBars : ∀ ps : List (List Char), ps ≠ [] →
    (∀ p ∈ ps, '|' ∉ p) → splitBars (joinBars ps) = ps := by
  intro ps
  induction ps with
  | nil => intro h; exact absurd rfl h
  | cons p ps' ih =>
      intro _ h
      have hp : '|' ∉ p := h p (List.mem_cons_self _ _)
      cases ps' with
      | nil => exact splitBars_noBar p hp
      | cons q qs =>
          have hrec : splitBars (joinBars (q :: qs)) = q :: qs :=
            ih (by simp) (fun x hx => h x (List.mem_cons_of_mem _ hx))
          show splitBars (p ++ bars ++ joinBars (q :: qs)) = p :: q :: qs
          rw [splitBars_append_bars p _ hp, hrec]

theorem joinBars_ne_nil : ∀ ps : List (List Char), ps ≠ [] →
    (∀ p ∈ ps, p ≠ []) → joinBars ps ≠ [] := by
  intro ps
  induction ps with
  | nil => intro h; exact absurd rfl h
  | cons p ps' _ =>
      intro _ h
      have hp : p ≠ [] := h p (List.mem_cons_self _ _)
      cases ps' with
      | nil => exact hp
      | cons q qs =>
          show p ++ bars ++ joinBars (q :: qs) ≠ []
          simp [hp]

/-- When every number of a contact is non-empty and free of the bar
character, the join-then-split round trip of the read endpoints returns the
stored numbers unchanged. -/
theorem groupConcatSplit_eq (ps : List (List Char))
    (h : ∀ p ∈ ps, p ≠ [] ∧ '|' ∉ p) : groupConcatSplit ps = ps := by
  cases hps : ps with
  | nil => rfl
  | cons p ps' =>
      subst hps
      unfold groupConcatSplit
      rw [if_neg (by simp)]
      rw [if_neg (joinBars_ne_nil _ (by simp) (fun x hx => (h x hx).1))]
      exact splitBars_joinBars _ (by simp) (fun x hx => (h x hx).2)

/-! ### The inserted phone rows -/

theorem mem_mkPhones : ∀ (cid tid : Nat) (l : List (List Char)) (p : Telefone),
    p ∈ mkPhones cid tid l →
    p.idcontato = cid ∧ ∃ t ∈ l, p.numero = sanitizar t := by
  intro cid tid l
  induction l generalizing tid with
  | nil => intro p h; simp [mkPhones] at h
  | cons t ts ih =>
      intro p h
      simp only [mkPhones, List.mem_cons] at h
      rcases h with h | h
      · subst h
        exact ⟨rfl, t, List.mem_cons_self _ _, rfl⟩
      · obtain ⟨hcid, u, hu, hnum⟩ := ih (tid + 1) p h
        exact ⟨hcid, u, List.mem_cons_of_mem _ hu, hnum⟩

theorem mkPhones_map_numero : ∀ (cid tid : Nat) (l : List (List Char)),
    (mkPhones cid tid l).map Telefone.numero = l.map sanitizar := by
  intro cid tid l
  induction l generalizing tid with
  | nil => rfl
  | cons t ts ih => simp [mkPhones, ih]

theorem mkPhones_filter_idcontato (cid tid : Nat) (l : List (List Char)) :
    (mkPhones cid tid l).filter (fun t => t.idcontato == cid) =
      mkPhones cid tid l := by
  rw [List.filter_eq_self]
  intro p hp
  have := (mem_mkPhones cid tid l p hp).1
  simp [this]

/-! ### Behaviour of the mutating endpoints, one lemma per branch -/

theorem criar_badRequest (db : DB) (nome : List Char) (idade : Option Int)
    (tels : List (List Char)) (h : tels.filter validarTelefone = []) :
    criarContato db nome idade tels = (db, Resp.badRequest) := by
  unfold criarContato
  by_cases h1 : validarContato nome idade = false
  · rw [if_pos h1]
  · rw [if_neg h1]
    by_cases h2 : tels = []
    · rw [if_pos h2]
    · rw [if_neg h2, if_pos h]

theorem criar_sucesso (db : DB) (nome : List Char) (idade : Option Int)
    (tels : List (List Char)) (h1 : validarContato nome idade = true)
    (h3 : tels.filter validarTelefone ≠ []) :
    criarContato db nome idade tels =
      (⟨db.contatos ++ [⟨db.proximoContatoId, sanitizar nome, idade⟩],
        db.telefones ++
          mkPhones db.proximoContatoId db.proximoTelefoneId
            (tels.filter validarTelefone),
        db.proximoContatoId + 1,
        db.proximoTelefoneId + (tels.filter validarTelefone).length⟩,
       Resp.created db.proximoContatoId) := by
  have h2 : tels ≠ [] := by
    intro h; apply h3; rw [h]; rfl
  unfold criarContato
  rw [if_neg (by simp [h1]), if_neg h2, if_neg h3]

theorem atualizar_badRequest (db : DB) (id : Nat) (nome : List Char)
    (idade : Option Int) (tels : List (List Char))
    (h : tels.filter validarTelefone = []) :
    atualizarContato db id nome idade tels = (db, Resp.badRequest) := by
  unfold atualizarContato
  by_cases h1 : validarContato nome idade = false
  · rw [if_pos h1]
  · rw [if_neg h1]
    by_cases h2 : tels = []
    · rw [if_pos h2]
    · rw [if_neg h2, if_pos h]

theorem atualizar_notFound (db : DB) (id : Nat) (nome : List Char)
    (idade : Option Int) (tels : List (List Char))
    (h1 : validarContato nome idade = true)
    (h3 : tels.filter validarTelefone ≠ [])
    (h4 : db.contatos.any (fun c => c.id == id) = false) :
    atualizarContato db id nome idade tels = (db, Resp.notFound) := by
  have h2 : tels ≠ [] := by
    intro h; apply h3; rw [h]; rfl
  unfold atualizarContato
  rw [if_neg (by simp [h1]), if_neg h2, if_neg h3, if_pos h4]

theorem atualizar_sucesso (db : DB) (id : Nat) (nome : List Char)
    (idade : Option Int) (tels : List (List Char))
    (h1 : validarContato nome idade = true)
    (h3 : tels.filter validarTelefone ≠ [])
    (h4 : db.contatos.any (fun c => c.id == id) = true) :
    atualizarContato db id nome idade tels =
      (⟨db.contatos.map
          (fun c => if c.id = id then ⟨c.id, sanitizar nome, idade⟩ else c),
        db.telefones.filter (fun t => !(t.idcontato == id)) ++
          mkPhones id db.proximoTelefoneId (tels.filter validarTelefone),
        db.proximoContatoId,
        db.proximoTelefoneId + (tels.filter validarTelefone).length⟩,
       Resp.okAtualizado) := by
  have h2 : tels ≠ [] := by
    intro h; apply h3; rw [h]; rfl
  unfold atualizarContato
  rw [if_neg (by simp [h1]), if_neg h2, if_neg h3, if_neg (by simp [h4])]

theorem excluir_notFound (db : DB) (id : Nat)
    (h : db.contatos.find? (fun c => c.id == id) = none) :
    excluirContato db id = ⟨db, [], Resp.notFound⟩ := by
  unfold excluirContato
  rw [h]

theorem excluir_sucesso (db : DB) (id : Nat) (c : Contato)
    (h : db.contatos.find? (fun c => c.id == id) = some c) :
    excluirContato db id =
      ⟨⟨db.contatos.filter (fun x => !(x.id == id)),
        db.telefones.filter (fun t => !(t.idcontato == id)),
        db.proximoContatoId, db.proximoTelefoneId⟩,
       [⟨id, c.nome, groupConcatSplit (phonesOf db id)⟩],
       Resp.okExcluido⟩ := by
  unfold excluirContato
  rw [h]

/-! ### Lemmas about the read endpoints -/

theorem mem_listarContatos (db : DB) (r : Row) :
    r ∈ listarContatos db ↔ ∃ c ∈ db.contatos, r = linhaContato db c := by
  unfold listarContatos sortByName
  simp only [List.mem_map, List.mem_insertionSort]
  constructor
  · rintro ⟨c, hc, rfl⟩; exact ⟨c, hc, rfl⟩
  · rintro ⟨c, hc, rfl⟩; exact ⟨c, hc, rfl⟩

theorem mem_pesquisarContatos (db : DB) (termo : List Char) (r : Row) :
    r ∈ pesquisarContatos db termo ↔
      trim termo ≠ [] ∧ ∃ c ∈ db.contatos,
        pesquisaMatch db termo c = true ∧ r = pesquisaRow db termo c := by
  unfold pesquisarContatos sortByName
  by_cases ht : trim termo = []
  · rw [if_pos ht]; simp [ht]
  · rw [if_neg ht]
    simp only [List.mem_map, List.mem_filter, List.mem_insertionSort, ht,
      ne_eq, not_false_iff, true_and]
    constructor
    · rintro ⟨c, ⟨hc, hm⟩, rfl⟩; exact ⟨c, hc, hm, rfl⟩
    · rintro ⟨c, hc, hm, rfl⟩; exact ⟨c, ⟨hc, hm⟩, rfl⟩

theorem mem_verificarTelefones (db : DB) (tels : List (List Char)) (r : Row) :
    r ∈ verificarTelefones db tels ↔
      tels ≠ [] ∧ numerosNormalizados tels ≠ [] ∧ ∃ c ∈ db.contatos,
        verificaMatch db (numerosNormalizados tels) c = true ∧
          r = verificaRow db (numerosNormalizados tels) c := by
  unfold verificarTelefones
  by_cases h1 : tels = []
  · rw [if_pos h1]; simp [h1]
  · rw [if_neg h1]
    by_cases h2 : numerosNormalizados tels = []
    · rw [if_pos h2]; simp [h1, h2]
    · rw [if_neg h2]
      simp only [List.mem_map, List.mem_filter, h1, h2, ne_eq,
        not_false_iff, true_and]
      constructor
      · rintro ⟨c, ⟨hc, hm⟩, rfl⟩; exact ⟨c, hc, hm, rfl⟩
      · rintro ⟨c, hc, hm, rfl⟩; exact ⟨c, ⟨hc, hm⟩, rfl⟩

/-- The bridge between the `any` over the joined phone rows of one contact
and the existence of a matching row in the phone table. -/
theorem phonesOf_any (db : DB) (cid : Nat) (p : List Char → Bool) :
    (phonesOf db cid).any p = true ↔
      ∃ t ∈ db.telefones, t.idcontato = cid ∧ p t.numero = true := by
  unfold phonesOf
  simp only [List.any_eq_true, List.mem_map, List.mem_filter, beq_iff_eq]
  constructor
  · rintro ⟨n, ⟨t, ⟨ht, hcid⟩, rfl⟩, hp⟩; exact ⟨t, ht, hcid, hp⟩
  · rintro ⟨t, ht, hcid, hp⟩; exact ⟨t.numero, ⟨t, ⟨ht, hcid⟩, rfl⟩, hp⟩

theorem sorted_listarContatos (db : DB) :
    (listarContatos db).Pairwise rowLe := by
  unfold listarContatos sortByName
  exact (List.sorted_insertionSort contatoLe db.contatos).map _
    (fun a b h => h)

theorem sorted_pesquisarContatos (db : DB) (termo : List Char) :
    (pesquisarContatos db termo).Pairwise rowLe := by
  unfold pesquisarContatos sortByName
  by_cases ht : trim termo = []
  · rw [if_pos ht]; exact List.Pairwise.nil
  · rw [if_neg ht]
    exact (((List.sorted_insertionSort contatoLe db.contatos).sublist
      (List.filter_sublist _)).map _ (fun a b h => h))

/-! ### Referential integrity -/

/-- Every phone row's IDCONTATO resolves to an existing contact row. -/
def RefIntegrity (db : DB) : Prop :=
  ∀ t ∈ db.telefones, ∃ c ∈ db.contatos, c.id = t.idcontato

theorem refIntegrity_criar (db : DB) (nome : List Char) (idade : Option Int)
    (tels : List (List Char)) (h : RefIntegrity db) :
    RefIntegrity (criarContato db nome idade tels).1 := by
  by_cases h3 : tels.filter validarTelefone = []
  · rw [criar_badRequest db nome idade tels h3]; exact h
  · by_cases h1 : validarContato nome idade = true
    · rw [criar_sucesso db nome idade tels h1 h3]
      intro t ht
      simp only [List.mem_append] at ht
      rcases ht with ht | ht
      · obtain ⟨c, hc, hid⟩ := h t ht
        exact ⟨c, List.mem_append_left _ hc, hid⟩
      · obtain ⟨hcid, -⟩ := mem_mkPhones _ _ _ t ht
        refine ⟨⟨db.proximoContatoId, sanitizar nome, idade⟩,
          List.mem_append_right _ ?_, hcid.symm⟩
        exact List.mem_singleton.mpr rfl
    · have hblock : criarContato db nome idade tels = (db, Resp.badRequest) := by
        unfold criarContato
        rw [if_pos (by simpa using h1)]
      rw [hblock]; exact h

theorem refIntegrity_atualizar (db : DB) (id : Nat) (nome : List Char)
    (idade : Option Int) (tels : List (List Char)) (h : RefIntegrity db) :
    RefIntegrity (atualizarContato db id nome idade tels).1 := by
  by_cases h3 : tels.filter validarTelefone = []
  · rw [atualizar_badRequest db id nome idade tels h3]; exact h
  · by_cases h1 : validarContato nome idade = true
    · by_cases h4 : db.contatos.any (fun c => c.id == id) = true
      · rw [atualizar_sucesso db id nome idade tels h1 h3 h4]
        intro t ht
        simp only [List.mem_append] at ht
        rcases ht with ht | ht
        · have htel := List.mem_of_mem_filter ht
          have hneq : t.idcontato ≠ id := by
            have := List.of_mem_filter ht
            simpa using this
          obtain ⟨c, hc, hid⟩ := h t htel
          have hcneq : ¬ c.id = id := by rw [hid]; exact hneq
          refine ⟨_, List.mem_map_of_mem
            (fun c => if c.id = id then ⟨c.id, sanitizar nome, idade⟩ else c) hc, ?_⟩
          simp only [if_neg hcneq]
          exact hid
        · obtain ⟨hcid, -⟩ := mem_mkPhones _ _ _ t ht
          obtain ⟨c0, hc0, hc0id⟩ : ∃ c0 ∈ db.contatos, c0.id = id := by
            simpa [List.any_eq_true, beq_iff_eq] using h4
          refine ⟨_, List.mem_map_of_mem
            (fun c => if c.id = id then ⟨c.id, sanitizar nome, idade⟩ else c) hc0, ?_⟩
          simp [hc0id, hcid]
      · rw [atualizar_notFound db id nome idade tels h1 h3 (by simpa using h4)]
        exact h
    · have hblock : atualizarContato db id nome idade tels = (db, Resp.badRequest) := by
        unfold atualizarContato
        rw [if_pos (by simpa using h1)]
      rw [hblock]; exact h

theorem refIntegrity_excluir (db : DB) (id : Nat) (h : RefIntegrity db) :
    RefIntegrity (excluirContato db id).db := by
  cases hf : db.contatos.find? (fun c => c.id == id) with
  | none => rw [excluir_notFound db id hf]; exact h
  | some c =>
      rw [excluir_sucesso db id c hf]
      intro t ht
      have htel := List.mem_of_mem_filter ht
      have hneq : t.idcontato ≠ id := by
        have := List.of_mem_filter ht
        simpa using this
      obtain ⟨c2, hc2, hid⟩ := h t htel
      refine ⟨c2, List.mem_filter.mpr ⟨hc2, ?_⟩, hid⟩
      simp only [Bool.not_eq_true', beq_eq_false_iff_ne, ne_eq]
      rw [hid]; exact hneq

/-! ### Concrete data used by witnesses and counterexamples -/

def nomeAna : List Char := ['A', 'n', 'a']

def nomeBia : List Char := ['B', 'i', 'a']

def t123 : List Char := ['1', '2', '3']

def t10 : List Char := ['1', '1', '3', '4', '5', '6', '7', '8', '9', '0']

def t11 : List Char := ['1', '1', '9', '8', '7', '6', '5', '4', '3', '2', '1']

def t99 : List Char := ['9', '9', '9', '9', '9', '9', '9', '9', '9', '9']

def telDot : List Char := ['1', '1', '.', '9', '8', '7', '6', '5', '-', '4', '3', '2', '1']

def telBar : List Char := ['1', '2', '3', '4', '5', '|', '|', '6', '7', '8', '9', '0']

def telPad : List Char := [' ', '1', '1', '9', '8', '7', '6', '5', '4', '3', '2', '1']

def telFmt : List Char :=
  ['(', '1', '1', ')', ' ', '9', '8', '7', '6', '5', '-', '4', '3', '2', '1']

def tBarA : List Char := ['1', '2', '3', '4', '5']

def tBarB : List Char := ['6', '7', '8', '9', '0']

def termo5 : List Char := ['1', '2', '3', '4', '5']

def termo7 : List Char := ['1', '1', '9', '8', '7', '6', '5']

def termo9 : List Char := ['9', '8', '7', '6', '5', '4', '3', '2', '1']

def termoSub : List Char := ['1', '3', '4', '5', '6']

/-- One contact Ana with the plain 10-digit phone. -/
def dbAna : DB := (criarContato dbInicial nomeAna none [t10]).1

/-- One contact Ana whose phone contains the GROUP_CONCAT separator. -/
def dbBar : DB := (criarContato dbInicial nomeAna none [telBar]).1

/-- One contact Ana with the separator-containing phone and one more phone. -/
def dbBar2 : DB := (criarContato dbInicial nomeAna none [telBar, t99]).1

/-- One contact Ana whose stored phone contains a dot, a character the SQL
normalization does not remove. -/
def dbDot : DB := (criarContato dbInicial nomeAna none [telDot]).1

/-- One contact Ana with the parenthesised-and-hyphenated phone format. -/
def dbFmt : DB := (criarContato dbInicial nomeAna none [telFmt]).1

/-- Ana with the formatted phone, then Bia with an unrelated phone. -/
def dbDois : DB :=
  (criarContato (criarContato dbInicial nomeAna none [telFmt]).1
    nomeBia none [t99]).1

/-! ### The claims -/

/-- Claim C8: the phone normalization produces the digit-only subsequence of
its input (a sublist of the input, made of digits only, keeping every digit
occurrence), the client-side normalization agrees with it, and it is
idempotent. -/
theorem claim8_normalizacao_idempotente (s : List Char) :
    (normalizarNumero s).Sublist s ∧
    (∀ c ∈ normalizarNumero s, c.isDigit = true) ∧
    (∀ c : Char, c.isDigit = true → (normalizarNumero s).count c = s.count c) ∧
    normalizarTelefone s = normalizarNumero s ∧
    normalizarNumero (normalizarNumero s) = normalizarNumero s := by
  refine ⟨List.filter_sublist s, ?_, ?_, rfl, ?_⟩
  · intro c hc
    exact List.of_mem_filter hc
  · intro c hc
    unfold normalizarNumero
    rw [List.count_filter hc]
  · simp [normalizarNumero, List.filter_filter]

theorem claim8_witness :
    (normalizarNumero telFmt).count '1' = telFmt.count '1' ∧
    normalizarNumero (normalizarNumero telFmt) = normalizarNumero telFmt :=
  ⟨(claim8_normalizacao_idempotente telFmt).2.2.1 '1' (by decide),
   (claim8_normalizacao_idempotente telFmt).2.2.2.2⟩

/-- Claim C3: in every state reachable through the application's create,
update and delete operations, every phone row's IDCONTATO resolves to an
existing contact row — no operation leaves an orphan phone row. -/
theorem claim3_integridade_referencial (db : DB) (h : Reachable db) :
    RefIntegrity db := by
  induction h with
  | init =>
      intro t ht
      simp [dbInicial] at ht
  | create db nome idade tels _ ih => exact refIntegrity_criar db nome idade tels ih
  | update db id nome idade tels _ ih =>
      exact refIntegrity_atualizar db id nome idade tels ih
  | delete db id _ ih => exact refIntegrity_excluir db id ih

theorem claim3_witness :
    RefIntegrity (atualizarContato (criarContato dbInicial nomeAna none [t10]).1
      1 nomeAna (some 30) [t11]).1 :=
  claim3_integridade_referencial _
    (Reachable.update _ 1 nomeAna (some 30) [t11]
      (Reachable.create dbInicial nomeAna none [t10] Reachable.init))

/-- Claim C5: a create request in which zero phones remain valid after the
10-or-11-digit filter is answered 400 and the stored state is unchanged: no
contact row and no phone row is persisted. -/
theorem claim5_criar_sem_telefone_valido (db : DB) (nome : List Char)
    (idade : Option Int) (tels : List (List Char))
    (h : tels.filter validarTelefone = []) :
    criarContato db nome idade tels = (db, Resp.badRequest) :=
  criar_badRequest db nome idade tels h

theorem claim5_witness :
    [t123].filter validarTelefone = [] ∧
    criarContato dbInicial nomeAna (some 30) [t123] = (dbInicial, Resp.badRequest) :=
  ⟨by decide,
   claim5_criar_sem_telefone_valido dbInicial nomeAna (some 30) [t123] (by decide)⟩

/-- Claim C1 is false as stated: the request below contains the invalid
3-digit phone "123" next to a valid phone, yet the create succeeds with 201
and persists the contact — it does not fail with 400. -/
theorem claim1_counterexample :
    validarTelefone t123 = false ∧
    (criarContato dbInicial nomeAna none [t123, t10]).2 = Resp.created 1 ∧
    (criarContato dbInicial nomeAna none [t123, t10]).1 ≠ dbInicial := by
  decide

/-- Claim C1 amended: a phone whose normalized length is not 10 or 11 is
silently filtered out instead of failing the request.  Create and update
answer 400 with the store unchanged exactly when no valid phone remains; no
phone row derived from an invalid phone is ever persisted; and a create whose
name/age pass validation succeeds whenever at least one valid phone remains,
despite any invalid phones in the request. -/
theorem claim1_telefone_invalido_filtrado (db : DB) (id : Nat)
    (nome : List Char) (idade : Option Int) (tels : List (List Char)) :
    (tels.filter validarTelefone = [] →
      criarContato db nome idade tels = (db, Resp.badRequest) ∧
      atualizarContato db id nome idade tels = (db, Resp.badRequest)) ∧
    (∀ p ∈ (criarContato db nome idade tels).1.telefones,
      p ∈ db.telefones ∨
        ∃ t ∈ tels, validarTelefone t = true ∧ p.numero = sanitizar t) ∧
    (∀ p ∈ (atualizarContato db id nome idade tels).1.telefones,
      p ∈ db.telefones ∨
        ∃ t ∈ tels, validarTelefone t = true ∧ p.numero = sanitizar t) ∧
    (validarContato nome idade = true → tels.filter validarTelefone ≠ [] →
      (criarContato db nome idade tels).2 = Resp.created db.proximoContatoId) := by
  refine ⟨fun h => ⟨criar_badRequest db nome idade tels h,
    atualizar_badRequest db id nome idade tels h⟩, ?_, ?_, ?_⟩
  · intro p hp
    by_cases h3 : tels.filter validarTelefone = []
    · rw [criar_badRequest db nome idade tels h3] at hp
      exact Or.inl hp
    · by_cases h1 : validarContato nome idade = true
      · rw [criar_sucesso db nome idade tels h1 h3] at hp
        simp only [List.mem_append] at hp
        rcases hp with hp | hp
        · exact Or.inl hp
        · obtain ⟨-, t, ht, hnum⟩ := mem_mkPhones _ _ _ p hp
          exact Or.inr ⟨t, List.mem_of_mem_filter ht,
            List.of_mem_filter ht, hnum⟩
      · have hblock : criarContato db nome idade tels = (db, Resp.badRequest) := by
          unfold criarContato
          rw [if_pos (by simpa using h1)]
        rw [hblock] at hp
        exact Or.inl hp
  · intro p hp
    by_cases h3 : tels.filter validarTelefone = []
    · rw [atualizar_badRequest db id nome idade tels h3] at hp
      exact Or.inl hp
    · by_cases h1 : validarContato nome idade = true
      · by_cases h4 : db.contatos.any (fun c => c.id == id) = true
        · rw [atualizar_sucesso db id nome idade tels h1 h3 h4] at hp
          simp only [List.mem_append] at hp
          rcases hp with hp | hp
          · exact Or.inl (List.mem_of_mem_filter hp)
          · obtain ⟨-, t, ht, hnum⟩ := mem_mkPhones _ _ _ p hp
            exact Or.inr ⟨t, List.mem_of_mem_filter ht,
              List.of_mem_filter ht, hnum⟩
        · rw [atualizar_notFound db id nome idade tels h1 h3 (by simpa using h4)] at hp
          exact Or.inl hp
      · have hblock : atualizarContato db id nome idade tels = (db, Resp.badRequest) := by
          unfold atualizarContato
          rw [if_pos (by simpa using h1)]
        rw [hblock] at hp
        exact Or.inl hp
  · intro h1 h3
    rw [criar_sucesso db nome idade tels h1 h3]

theorem claim1_witness :
    ([t123].filter validarTelefone = [] ∧
      criarContato dbInicial nomeAna none [t123] = (dbInicial, Resp.badRequest)) ∧
    (validarContato nomeAna none = true ∧
      (criarContato dbInicial nomeAna none [t123, t10]).2 = Resp.created 1) :=
  ⟨⟨by decide,
    ((claim1_telefone_invalido_filtrado dbInicial 1 nomeAna none [t123]).1
      (by decide)).1⟩,
   ⟨by decide,
    (claim1_telefone_invalido_filtrado dbInicial 1 nomeAna none [t123, t10]).2.2.2
      (by decide) (by decide)⟩⟩

/-- Claim C6 is false as stated: the padded phone below (a leading space
before 11 digits) is a valid phone of the request, the update succeeds, but
the stored phone set holds the trimmed string, which differs from the
request's valid-phone set. -/
theorem claim6_counterexample :
    [telPad].filter validarTelefone = [telPad] ∧
    (atualizarContato dbAna 1 nomeAna none [telPad]).2 = Resp.okAtualizado ∧
    phonesOf (atualizarContato dbAna 1 nomeAna none [telPad]).1 1 ≠ [telPad] := by
  decide

/-- Claim C6 amended: for an existing id and a valid request, the update
overwrites the contact's name (sanitized) and age and replaces the whole
phone set: afterwards the contact's stored numbers are exactly the sanitized
(trimmed, 200-char-truncated) forms of the request's valid phones, in request
order; every other contact keeps its row and its phone set; an absent id
gives 404 and changes nothing. -/
theorem claim6_atualizacao_substitui_telefones (db : DB) (id : Nat)
    (nome : List Char) (idade : Option Int) (tels : List (List Char))
    (h1 : validarContato nome idade = true)
    (h3 : tels.filter validarTelefone ≠ []) :
    ((∃ c ∈ db.contatos, c.id = id) →
      (atualizarContato db id nome idade tels).2 = Resp.okAtualizado ∧
      phonesOf (atualizarContato db id nome idade tels).1 id =
        (tels.filter validarTelefone).map sanitizar ∧
      (∀ j, j ≠ id →
        phonesOf (atualizarContato db id nome idade tels).1 j = phonesOf db j) ∧
      (∀ c ∈ db.contatos, c.id ≠ id →
        c ∈ (atualizarContato db id nome idade tels).1.contatos) ∧
      (∀ c ∈ db.contatos, c.id = id →
        (⟨id, sanitizar nome, idade⟩ : Contato) ∈
          (atualizarContato db id nome idade tels).1.contatos)) ∧
    ((¬ ∃ c ∈ db.contatos, c.id = id) →
      atualizarContato db id nome idade tels = (db, Resp.notFound)) := by
  constructor
  · rintro ⟨c0, hc0, hc0id⟩
    have h4 : db.contatos.any (fun c => c.id == id) = true := by
      simp only [List.any_eq_true, beq_iff_eq]
      exact ⟨c0, hc0, hc0id⟩
    rw [atualizar_sucesso db id nome idade tels h1 h3 h4]
    refine ⟨rfl, ?_, ?_, ?_, ?_⟩
    · unfold phonesOf
      simp only [List.filter_append, List.filter_filter]
      rw [mkPhones_filter_idcontato]
      have hnil : db.telefones.filter
          (fun t => (t.idcontato == id) && !(t.idcontato == id)) = [] := by
        apply List.filter_eq_nil_iff.mpr
        intro t _
        cases h : t.idcontato == id <;> simp [h]
      rw [hnil, List.nil_append, mkPhones_map_numero]
    · intro j hj
      unfold phonesOf
      simp only [List.filter_append, List.filter_filter, List.map_append]
      have hmk : (mkPhones id db.proximoTelefoneId
          (tels.filter validarTelefone)).filter (fun t => t.idcontato == j) = [] := by
        apply List.filter_eq_nil_iff.mpr
        intro t ht
        have hid := (mem_mkPhones _ _ _ t ht).1
        simp only [hid, beq_iff_eq]
        exact fun h => hj h.symm
      rw [hmk]
      have hcongr : db.telefones.filter
          (fun t => (t.idcontato == j) && !(t.idcontato == id)) =
          db.telefones.filter (fun t => t.idcontato == j) := by
        apply List.filter_congr
        intro t _
        by_cases h : t.idcontato = j
        · simp [h, hj]
        · simp [h]
      rw [hcongr]
      simp
    · intro c hc hcne
      have hfc : (if c.id = id then
          (⟨c.id, sanitizar nome, idade⟩ : Contato) else c) = c := if_neg hcne
      rw [← hfc]
      exact List.mem_map_of_mem _ hc
    · intro c hc hceq
      have hfc : (if c.id = id then
          (⟨c.id, sanitizar nome, idade⟩ : Contato) else c) =
          (⟨id, sanitizar nome, idade⟩ : Contato) := by
        rw [if_pos hceq, hceq]
      rw [← hfc]
      exact List.mem_map_of_mem _ hc
  · intro hne
    have h4 : db.contatos.any (fun c => c.id == id) = false := by
      cases h : db.contatos.any (fun c => c.id == id)
      · rfl
      · exfalso
        apply hne
        simpa [List.any_eq_true, beq_iff_eq] using h
    exact atualizar_notFound db id nome idade tels h1 h3 h4

theorem claim6_witness :
    phonesOf (atualizarContato dbAna 1 nomeAna none [t11]).1 1 = [t11] := by
  have h := ((claim6_atualizacao_substitui_telefones dbAna 1 nomeAna none [t11]
    (by decide) (by decide)).1 ⟨⟨1, nomeAna, none⟩, by decide, rfl⟩).2.1
  rw [h]
  decide

/-- Claim C4 is false as stated: with the stored phone "12345||67890" the
audit line records the phone list split at the GROUP_CONCAT separator into
two strings, which is not the contact's pre-deletion phone list. -/
theorem claim4_counterexample :
    phonesOf dbBar 1 = [telBar] ∧
    (excluirContato dbBar 1).logAppend =
      [⟨1, nomeAna, [tBarA, tBarB]⟩] ∧
    [tBarA, tBarB] ≠ [telBar] := by
  decide

/-- Claim C4 amended: deleting an existing id removes the contact row and,
through the cascade, every phone row of that contact (none is returned any
more by list, get-by-id, search or duplicate-check), and appends exactly one
audit line computed from the pre-deletion state, carrying the contact's name
and its phone list as reassembled by splitting the GROUP_CONCAT of its
numbers on the two-bar separator (equal to the true list whenever no number
contains the bar character); an absent id gives 404 and appends nothing. -/
theorem claim4_exclusao_cascata_log (db : DB) (id : Nat) :
    (∀ c, db.contatos.find? (fun x => x.id == id) = some c →
      (excluirContato db id).resp = Resp.okExcluido ∧
      (excluirContato db id).logAppend =
        [⟨id, c.nome, groupConcatSplit (phonesOf db id)⟩] ∧
      (excluirContato db id).db.contatos =
        db.contatos.filter (fun x => !(x.id == id)) ∧
      (excluirContato db id).db.telefones =
        db.telefones.filter (fun t => !(t.idcontato == id)) ∧
      phonesOf (excluirContato db id).db id = [] ∧
      (∀ r ∈ listarContatos (excluirContato db id).db, r.ID ≠ id) ∧
      obterContato (excluirContato db id).db id = none ∧
      (∀ termo r, r ∈ pesquisarContatos (excluirContato db id).db termo →
        r.ID ≠ id) ∧
      (∀ tels r, r ∈ verificarTelefones (excluirContato db id).db tels →
        r.ID ≠ id)) ∧
    (db.contatos.find? (fun x => x.id == id) = none →
      excluirContato db id = ⟨db, [], Resp.notFound⟩) := by
  constructor
  · intro c hf
    rw [excluir_sucesso db id c hf]
    have hcon : ∀ x ∈ db.contatos.filter (fun x => !(x.id == id)), x.id ≠ id := by
      intro x hx
      have := List.of_mem_filter hx
      simpa using this
    refine ⟨rfl, rfl, rfl, rfl, ?_, ?_, ?_, ?_, ?_⟩
    · unfold phonesOf
      have hnil : (db.telefones.filter (fun t => !(t.idcontato == id))).filter
          (fun t => t.idcontato == id) = [] := by
        rw [List.filter_filter]
        apply List.filter_eq_nil_iff.mpr
        intro t _
        cases h : t.idcontato == id <;> simp [h]
      rw [hnil]
      rfl
    · intro r hr
      obtain ⟨c2, hc2, rfl⟩ := (mem_listarContatos _ r).mp hr
      exact hcon c2 hc2
    · unfold obterContato
      rw [List.find?_eq_none.mpr]
      · rfl
      · intro x hx
        simpa using hcon x hx
    · intro termo r hr
      obtain ⟨-, c2, hc2, -, rfl⟩ := (mem_pesquisarContatos _ termo r).mp hr
      exact hcon c2 hc2
    · intro tels r hr
      obtain ⟨-, -, c2, hc2, -, rfl⟩ := (mem_verificarTelefones _ tels r).mp hr
      exact hcon c2 hc2
  · exact excluir_notFound db id

theorem claim4_witness :
    (excluirContato dbAna 1).logAppend = [⟨1, nomeAna, [t10]⟩] ∧
    obterContato (excluirContato dbAna 1).db 1 = none := by
  have h := (claim4_exclusao_cascata_log dbAna 1).1 ⟨1, nomeAna, none⟩ (by decide)
  refine ⟨?_, h.2.2.2.2.2.2.1⟩
  rw [h.2.1]
  decide

/-- Claim C9 is false as stated: with the stored phone "12345||67890" the
list endpoint returns a TELEFONES array of two strings, which is not the
contact's full list of stored phone strings. -/
theorem claim9_counterexample :
    phonesOf dbBar 1 = [telBar] ∧
    listarContatos dbBar = [⟨1, nomeAna, none, [tBarA, tBarB]⟩] ∧
    [tBarA, tBarB] ≠ [telBar] := by
  decide

/-- Claim C9 amended: the list endpoint returns every stored contact exactly
once (id, name, age with null when absent), ordered by name, and the search
endpoint is ordered by name as well; the TELEFONES array of each row equals
the contact's full stored phone list provided every stored number is
non-empty and free of the bar character — a number containing the
GROUP_CONCAT separator is otherwise split into several entries. -/
theorem claim9_listagem_ordenada (db : DB)
    (hbar : ∀ t ∈ db.telefones, t.numero ≠ [] ∧ '|' ∉ t.numero) :
    ((listarContatos db).map (fun r => (r.ID, r.NOME, r.IDADE))).Perm
      (db.contatos.map (fun c => (c.id, c.nome, c.idade))) ∧
    (∀ r ∈ listarContatos db, r.TELEFONES = phonesOf db r.ID) ∧
    (listarContatos db).Pairwise rowLe ∧
    (∀ termo, (pesquisarContatos db termo).Pairwise rowLe) := by
  refine ⟨?_, ?_, sorted_listarContatos db, fun termo => sorted_pesquisarContatos db termo⟩
  · unfold listarContatos sortByName
    rw [List.map_map]
    exact (List.perm_insertionSort contatoLe db.contatos).map _
  · intro r hr
    obtain ⟨c, -, rfl⟩ := (mem_listarContatos db r).mp hr
    show groupConcatSplit (phonesOf db c.id) = phonesOf db c.id
    apply groupConcatSplit_eq
    intro p hp
    unfold phonesOf at hp
    simp only [List.mem_map, List.mem_filter] at hp
    obtain ⟨t, ⟨ht, -⟩, rfl⟩ := hp
    exact hbar t ht

theorem claim9_witness :
    ((listarContatos dbDois).map (fun r => (r.ID, r.NOME, r.IDADE))).Perm
      (dbDois.contatos.map (fun c => (c.id, c.nome, c.idade))) ∧
    (listarContatos dbDois).Pairwise rowLe :=
  ⟨(claim9_listagem_ordenada dbDois (by decide)).1,
   (claim9_listagem_ordenada dbDois (by decide)).2.2.1⟩

/-- Claim C10 is false as stated only on separator-containing numbers: here
the name does not match the term, and the returned TELEFONES array contains
the string "67890", which is not one of the contact's phones at all (it is a
fragment of the matching phone "12345||67890"). -/
theorem claim10_counterexample :
    nomeLike nomeAna termo5 = false ∧
    pesquisarContatos dbBar2 termo5 = [⟨1, nomeAna, none, [tBarA, tBarB]⟩] ∧
    tBarB ∉ phonesOf dbBar2 1 := by
  decide

/-- Claim C10 amended: in the search response, the WHERE clause filters the
joined phone rows before GROUP_CONCAT aggregates them, so a returned contact
whose name does not match the term carries exactly its phones whose
SQL-normalized number contains the normalized term — not its full stored
phone set — provided every stored number is non-empty and bar-free (a
separator-containing number is split into fragments instead). -/
theorem claim10_pesquisa_telefones_filtrados (db : DB) (termo : List Char)
    (r : Row)
    (hbar : ∀ t ∈ db.telefones, t.numero ≠ [] ∧ '|' ∉ t.numero)
    (hr : r ∈ pesquisarContatos db termo)
    (hn : nomeLike r.NOME termo = false) :
    r.TELEFONES = (phonesOf db r.ID).filter
      (fun n => occursIn (normalizarNumero termo) (sqlNumeroNormalizado n)) ∧
    (∀ n ∈ r.TELEFONES, n ∈ phonesOf db r.ID ∧
      occursIn (normalizarNumero termo) (sqlNumeroNormalizado n) = true) := by
  obtain ⟨-, c, hc, -, rfl⟩ := (mem_pesquisarContatos db termo r).mp hr
  have hn' : nomeLike c.nome termo = false := hn
  have hbridge : (phonesOf db c.id).filter (pesquisaCond termo c.nome) =
      (phonesOf db c.id).filter
        (fun n => occursIn (normalizarNumero termo) (sqlNumeroNormalizado n)) := by
    apply List.filter_congr
    intro n _
    unfold pesquisaCond
    rw [hn', Bool.false_or]
  have hphones : ∀ p ∈ (phonesOf db c.id).filter (pesquisaCond termo c.nome),
      p ≠ [] ∧ '|' ∉ p := by
    intro p hp
    have hp2 := List.mem_of_mem_filter hp
    unfold phonesOf at hp2
    simp only [List.mem_map, List.mem_filter] at hp2
    obtain ⟨t, ⟨ht, -⟩, rfl⟩ := hp2
    exact hbar t ht
  constructor
  · show groupConcatSplit ((phonesOf db c.id).filter (pesquisaCond termo c.nome)) = _
    rw [groupConcatSplit_eq _ hphones, hbridge]
    rfl
  · intro n hn2
    have hn3 : n ∈ (phonesOf db c.id).filter (pesquisaCond termo c.nome) := by
      have := groupConcatSplit_eq _ hphones
      show n ∈ _
      rw [← this]
      exact hn2
    refine ⟨List.mem_of_mem_filter hn3, ?_⟩
    have := List.of_mem_filter hn3
    unfold pesquisaCond at this
    rw [hn', Bool.false_or] at this
    exact this

theorem claim10_witness :
    (⟨1, nomeAna, none, [t10]⟩ : Row).TELEFONES =
      (phonesOf dbAna 1).filter
        (fun n => occursIn (normalizarNumero termoSub) (sqlNumeroNormalizado n)) :=
  (claim10_pesquisa_telefones_filtrados dbAna termoSub ⟨1, nomeAna, none, [t10]⟩
    (by decide) (by decide) (by decide)).1

/-- Claim C2 is false as stated: the stored phone "11.98765-4321" is
persisted by a successful create — its digit-only normalization
"11987654321" contains the non-blank search term "1198765" — yet the search
returns nothing, because the SQL-side normalization removes only parentheses,
hyphens and spaces, so the dot interrupts the match. -/
theorem claim2_counterexample :
    (criarContato dbInicial nomeAna none [telDot]).2 = Resp.created 1 ∧
    occursIn (normalizarNumero termo7) (normalizarNumero telDot) = true ∧
    trim termo7 ≠ [] ∧
    pesquisarContatos dbDot termo7 = [] := by
  decide

/-- Claim C2 amended: for a non-blank term free of the LIKE metacharacters,
the search returns exactly the contacts whose name contains the term
(ASCII-case-insensitively) or owning a phone whose stored number, stripped
of parentheses, hyphens and spaces only, contains the digit-only normalized
term as a substring; the result is deduplicated by contact identity and
ordered by name.  For stored numbers containing no other non-digit
characters this coincides with matching on the digit-only normal form. -/
theorem claim2_pesquisa_por_nome_ou_telefone (db : DB) (termo : List Char)
    (_hw : '%' ∉ termo ∧ '_' ∉ termo) (ht : trim termo ≠ []) :
    (∀ r ∈ pesquisarContatos db termo, ∃ c ∈ db.contatos,
      r.ID = c.id ∧ r.NOME = c.nome ∧
      (nomeLike c.nome termo = true ∨ ∃ t ∈ db.telefones, t.idcontato = c.id ∧
        occursIn (normalizarNumero termo) (sqlNumeroNormalizado t.numero) = true)) ∧
    (∀ c ∈ db.contatos,
      (nomeLike c.nome termo = true ∨ ∃ t ∈ db.telefones, t.idcontato = c.id ∧
        occursIn (normalizarNumero termo) (sqlNumeroNormalizado t.numero) = true) →
      ∃ r ∈ pesquisarContatos db termo, r.ID = c.id ∧ r.NOME = c.nome) ∧
    (pesquisarContatos db termo).Pairwise rowLe ∧
    ((db.contatos.map Contato.id).Nodup →
      ((pesquisarContatos db termo).map Row.ID).Nodup) := by
  have hmatch : ∀ c : Contato, pesquisaMatch db termo c = true ↔
      (nomeLike c.nome termo = true ∨ ∃ t ∈ db.telefones, t.idcontato = c.id ∧
        occursIn (normalizarNumero termo) (sqlNumeroNormalizado t.numero) = true) := by
    intro c
    unfold pesquisaMatch
    rw [Bool.or_eq_true]
    constructor
    · rintro (h | h)
      · exact Or.inl h
      · exact Or.inr ((phonesOf_any db c.id _).mp h)
    · rintro (h | h)
      · exact Or.inl h
      · exact Or.inr ((phonesOf_any db c.id _).mpr h)
  refine ⟨?_, ?_, sorted_pesquisarContatos db termo, ?_⟩
  · intro r hr
    obtain ⟨-, c, hc, hm, rfl⟩ := (mem_pesquisarContatos db termo r).mp hr
    exact ⟨c, hc, rfl, rfl, (hmatch c).mp hm⟩
  · intro c hc hm
    refine ⟨pesquisaRow db termo c, ?_, rfl, rfl⟩
    exact (mem_pesquisarContatos db termo _).mpr
      ⟨ht, c, hc, (hmatch c).mpr hm, rfl⟩
  · intro hnd
    unfold pesquisarContatos sortByName
    rw [if_neg ht, List.map_map]
    have hperm : ((List.insertionSort contatoLe db.contatos).map Contato.id).Perm
        (db.contatos.map Contato.id) :=
      (List.perm_insertionSort contatoLe db.contatos).map _
    have hnd2 : ((List.insertionSort contatoLe db.contatos).map Contato.id).Nodup :=
      hperm.nodup_iff.mpr hnd
    have hsub : (((List.insertionSort contatoLe db.contatos).filter
        (pesquisaMatch db termo)).map Contato.id).Sublist
        ((List.insertionSort contatoLe db.contatos).map Contato.id) :=
      (List.filter_sublist _).map Contato.id
    exact hsub.nodup hnd2

theorem claim2_witness :
    ((pesquisarContatos dbFmt termo9).map Row.ID).Nodup ∧
    ∃ r ∈ pesquisarContatos dbFmt termo9, r.ID = 1 ∧ r.NOME = nomeAna :=
  ⟨(claim2_pesquisa_por_nome_ou_telefone dbFmt termo9 (by decide) (by decide)).2.2.2
     (by decide),
   (claim2_pesquisa_por_nome_ou_telefone dbFmt termo9 (by decide) (by decide)).2.1
     ⟨1, nomeAna, none⟩ (by decide)
     (Or.inr ⟨⟨1, 1, telFmt⟩, by decide, rfl, by decide⟩)⟩

/-- Claim C7 is false as stated: the phone "11.98765-4321" and the candidate
"11987654321" have the same digit-only normalization, the create persisting
the former succeeds, yet the duplicate check with the latter returns no
contact, because the SQL-side normalization keeps the dot. -/
theorem claim7_counterexample :
    normalizarNumero telDot = normalizarNumero t11 ∧
    (criarContato dbInicial nomeAna none [telDot]).2 = Resp.created 1 ∧
    verificarTelefones dbDot [t11] = [] := by
  decide

/-- Claim C7 amended: the duplicate check returns exactly the contacts
owning a phone whose stored number, stripped of parentheses, hyphens and
spaces only, equals the digit-only normalization of some candidate (empty
normalizations being discarded); for stored numbers containing no other
non-digit characters this coincides with equality of digit-only normal
forms. -/
theorem claim7_verificacao_duplicatas (db : DB) (tels : List (List Char)) :
    (∀ r ∈ verificarTelefones db tels, ∃ c ∈ db.contatos,
      r.ID = c.id ∧ r.NOME = c.nome ∧ ∃ t ∈ db.telefones, t.idcontato = c.id ∧
        sqlNumeroNormalizado t.numero ∈ numerosNormalizados tels) ∧
    (tels ≠ [] → ∀ c ∈ db.contatos,
      (∃ t ∈ db.telefones, t.idcontato = c.id ∧
        sqlNumeroNormalizado t.numero ∈ numerosNormalizados tels) →
      ∃ r ∈ verificarTelefones db tels, r.ID = c.id ∧ r.NOME = c.nome) := by
  have hmatch : ∀ c : Contato,
      verificaMatch db (numerosNormalizados tels) c = true ↔
      ∃ t ∈ db.telefones, t.idcontato = c.id ∧
        sqlNumeroNormalizado t.numero ∈ numerosNormalizados tels := by
    intro c
    unfold verificaMatch
    rw [phonesOf_any db c.id _]
    constructor
    · rintro ⟨t, ht, hcid, hmem⟩
      exact ⟨t, ht, hcid, of_decide_eq_true hmem⟩
    · rintro ⟨t, ht, hcid, hmem⟩
      exact ⟨t, ht, hcid, decide_eq_true hmem⟩
  constructor
  · intro r hr
    obtain ⟨-, -, c, hc, hm, rfl⟩ := (mem_verificarTelefones db tels r).mp hr
    exact ⟨c, hc, rfl, rfl, (hmatch c).mp hm⟩
  · intro h1 c hc hm
    have h2 : numerosNormalizados tels ≠ [] := by
      obtain ⟨t, -, -, hmem⟩ := hm
      intro hnil
      rw [hnil] at hmem
      exact List.not_mem_nil _ hmem
    refine ⟨verificaRow db (numerosNormalizados tels) c, ?_, rfl, rfl⟩
    exact (mem_verificarTelefones db tels _).mpr
      ⟨h1, h2, c, hc, (hmatch c).mpr hm, rfl⟩

theorem claim7_witness :
    ∃ r ∈ verificarTelefones dbDois [t11], r.ID = 1 ∧ r.NOME = nomeAna :=
  (claim7_verificacao_duplicatas dbDois [t11]).2 (by decide)
    ⟨1, nomeAna, none⟩ (by decide)
    ⟨⟨1, 1, telFmt⟩, by decide, rfl, by decide⟩

end Agenda
